import Mathlib

/-! # runc: process descriptors, container status and command-line helpers

A shallow embedding of `libcontainer/process.go`, `libcontainer/container.go`
and `utils.go`.

Conventions of the embedding:

* a Go `error` is an `Option GoError` (`none` is the nil error);
* a Go pointer or interface value that may be nil is an `Option`;
* Go `int` values are `Int` (no arithmetic is performed on them here, so no
  wrap-around can occur);
* Go strings are `String`, that is sequences of Unicode code points;
* code that talks to the outside world threads an explicit world state.
-/

/-! ## Go runtime values -/

/-- An argument handed to a `fmt` formatting function. -/
inductive FmtArg where
  | str (s : String)
  | int (n : Int)
  deriving DecidableEq, Repr

/-- Go error values produced by the embedded code: `errors.New`, `fmt.Errorf`
(kept as format string and arguments) and `*strconv.NumError`. -/
inductive GoError where
  | errorString (s : String)
  | errorf (format : String) (args : List FmtArg)
  | numError (Func : String) (Num : String) (Err : GoError)
  deriving DecidableEq, Repr

/-- `errors.New`. -/
def errors.New (text : String) : GoError := GoError.errorString text

/-- `fmt.Errorf`, kept unformatted. -/
def fmt.Errorf (format : String) (args : List FmtArg) : GoError := GoError.errorf format args

/-- `math.MinInt32`, the constant `-1 << 31`. -/
def math.MinInt32 : Int := -(2 ^ 31)

/-- `os.ProcessState`: what is known about a process that has exited. -/
structure os.ProcessState where
  pid : Int
  status : Int
  deriving DecidableEq, Repr

/-- `os.Signal`, identified by its signal number. -/
structure os.Signal where
  num : Int
  deriving DecidableEq, Repr

/-- `os.File`, identified by its descriptor number. -/
structure os.File where
  fd : Nat
  deriving DecidableEq, Repr

/-- A stream behind an `io.Reader`, `io.Writer` interface value. -/
structure GoStream where
  id : Nat
  deriving DecidableEq, Repr

/-- Type `configs.Capabilities` of package `libcontainer/configs`: the
capability sets to keep. -/
structure configs.Capabilities where
  Bounding : List String
  Effective : List String
  Inheritable : List String
  Permitted : List String
  Ambient : List String
  deriving DecidableEq, Repr

/-- Type `configs.Rlimit` of package `libcontainer/configs`: one resource limit. -/
structure configs.Rlimit where
  Typ : Int
  Hard : Nat
  Soft : Nat
  deriving DecidableEq, Repr

/-- Type `configs.Config` of package `libcontainer/configs`: the container
configuration, passed through uninterpreted. -/
structure configs.Config where
  blob : String
  deriving DecidableEq, Repr

namespace libcontainer

/-! ## `libcontainer/process.go` -/

/-- The package variable `errInvalidProcess`. -/
def errInvalidProcess : GoError := errors.New "invalid process"

/-- The interface `processOperations`. A backend acts on a world `W`; every
method receives the world and returns its result with the world it leaves. -/
structure processOperations (W : Type) where
  wait : W → (Option os.ProcessState × Option GoError) × W
  signal : os.Signal → W → Option GoError × W
  pid : W → Int × W

/-- The struct `Process`. `ops` is the interface field, `none` when nil. -/
structure Process (W : Type) where
  Args : List String
  Env : List String
  User : String
  AdditionalGroups : List String
  Cwd : String
  Stdin : Option GoStream
  Stdout : Option GoStream
  Stderr : Option GoStream
  ExtraFiles : List (Option os.File)
  ConsoleWidth : Nat
  ConsoleHeight : Nat
  Capabilities : Option configs.Capabilities
  AppArmorProfile : String
  Label : String
  NoNewPrivileges : Option Bool
  Rlimits : List configs.Rlimit
  ConsoleSocket : Option os.File
  Init : Bool
  ops : Option (processOperations W)
  LogLevel : String
  SubCgroupPaths : List (String × String)

/-- Method `Process.Wait` (value receiver). -/
def Process.Wait {W : Type} (p : Process W) (w : W) :
    (Option os.ProcessState × Option GoError) × W :=
  match p.ops with
  | none => ((none, some errInvalidProcess), w)
  | some ops => ops.wait w

/-- Method `Process.Pid` (value receiver). -/
def Process.Pid {W : Type} (p : Process W) (w : W) : (Int × Option GoError) × W :=
  match p.ops with
  | none => ((math.MinInt32, some errInvalidProcess), w)
  | some ops =>
    let r := ops.pid w
    ((r.1, none), r.2)

/-- Method `Process.Signal` (value receiver). -/
def Process.Signal {W : Type} (p : Process W) (sig : os.Signal) (w : W) : Option GoError × W :=
  match p.ops with
  | none => (some errInvalidProcess, w)
  | some ops => ops.signal sig w

/-- The zero value of `Process`. -/
def Process.zero (W : Type) : Process W where
  Args := []
  Env := []
  User := ""
  AdditionalGroups := []
  Cwd := ""
  Stdin := none
  Stdout := none
  Stderr := none
  ExtraFiles := []
  ConsoleWidth := 0
  ConsoleHeight := 0
  Capabilities := none
  AppArmorProfile := ""
  Label := ""
  NoNewPrivileges := none
  Rlimits := []
  ConsoleSocket := none
  Init := false
  ops := none
  LogLevel := ""
  SubCgroupPaths := []

/-! ### Clients of a descriptor: sequences of accessor calls -/

/-- One accessor call on a descriptor. -/
inductive Call where
  | Wait
  | Pid
  | Signal (sig : os.Signal)
  deriving DecidableEq, Repr

/-- What an accessor call returned. -/
inductive Outcome where
  | Wait (state : Option os.ProcessState) (err : Option GoError)
  | Pid (pid : Int) (err : Option GoError)
  | Signal (err : Option GoError)
  deriving DecidableEq, Repr

/-- The error component of an outcome. -/
def Outcome.err : Outcome → Option GoError
  | Outcome.Wait _ e => e
  | Outcome.Pid _ e => e
  | Outcome.Signal e => e

/-- Perform one accessor call on `p`. -/
def Process.call {W : Type} (p : Process W) (c : Call) (w : W) : Outcome × W :=
  match c with
  | Call.Wait =>
    let r := p.Wait w
    (Outcome.Wait r.1.1 r.1.2, r.2)
  | Call.Pid =>
    let r := p.Pid w
    (Outcome.Pid r.1.1 r.1.2, r.2)
  | Call.Signal sig =>
    let r := p.Signal sig w
    (Outcome.Signal r.1, r.2)

/-- Perform a sequence of accessor calls on the same descriptor `p`, in order. -/
def Process.calls {W : Type} (p : Process W) : List Call → W → List Outcome × W
  | [], w => ([], w)
  | c :: cs, w =>
    let r := p.call c w
    let rs := p.calls cs r.2
    (r.1 :: rs.1, rs.2)

/-- What every call on an unbound descriptor is to return. -/
def invalidOutcome : Call → Outcome
  | Call.Wait => Outcome.Wait none (some errInvalidProcess)
  | Call.Pid => Outcome.Pid math.MinInt32 (some errInvalidProcess)
  | Call.Signal _ => Outcome.Signal (some errInvalidProcess)

/-- A backend call, as recorded by `recording`. -/
inductive BackendCall where
  | wait
  | signal (sig : os.Signal)
  | pid
  deriving DecidableEq, Repr

/-- The backend `ops` with a log of the calls made to it added to the world. -/
def recording {W : Type} (ops : processOperations W) :
    processOperations (W × List BackendCall) where
  wait := fun s =>
    let r := ops.wait s.1
    (r.1, (r.2, s.2 ++ [BackendCall.wait]))
  signal := fun sig s =>
    let r := ops.signal sig s.1
    (r.1, (r.2, s.2 ++ [BackendCall.signal sig]))
  pid := fun s =>
    let r := ops.pid s.1
    (r.1, (r.2, s.2 ++ [BackendCall.pid]))

/-- A sample backend over a counter world: the process has pid `n`, `wait`
reports exit status 0, `signal` fails for signal 0 only; every call ticks
the counter. -/
def sampleOps (n : Int) : processOperations Nat where
  wait := fun w => ((some ⟨n, 0⟩, none), w + 1)
  signal := fun sig w =>
    (if sig.num = 0 then some (errors.New "no such signal") else none, w + 1)
  pid := fun w => (n, w + 1)

/-! ## `libcontainer/container.go` -/

/-- The type `Status`, a defined type over `int`. -/
structure Status where
  val : Int
  deriving DecidableEq, Repr

/-- Constant `Created` (`iota` = 0). -/
def Created : Status := ⟨0⟩
/-- Constant `Running`. -/
def Running : Status := ⟨1⟩
/-- Constant `Pausing`. -/
def Pausing : Status := ⟨2⟩
/-- Constant `Paused`. -/
def Paused : Status := ⟨3⟩
/-- Constant `Stopped`. -/
def Stopped : Status := ⟨4⟩

/-- Method `Status.String`. -/
def Status.String (s : Status) : String :=
  if s = Created then "created"
  else if s = Running then "running"
  else if s = Pausing then "pausing"
  else if s = Paused then "paused"
  else if s = Stopped then "stopped"
  else "unknown"

/-- The five statuses the package defines. -/
def definedStatuses : List Status := [Created, Running, Pausing, Paused, Stopped]

/-- The descriptor `p` once the assignment `p.ops = ops` has bound it to a
backend (acting on a world `V`); all other fields are kept. -/
def Process.bind {W V : Type} (p : Process W) (ops : processOperations V) : Process V where
  Args := p.Args
  Env := p.Env
  User := p.User
  AdditionalGroups := p.AdditionalGroups
  Cwd := p.Cwd
  Stdin := p.Stdin
  Stdout := p.Stdout
  Stderr := p.Stderr
  ExtraFiles := p.ExtraFiles
  ConsoleWidth := p.ConsoleWidth
  ConsoleHeight := p.ConsoleHeight
  Capabilities := p.Capabilities
  AppArmorProfile := p.AppArmorProfile
  Label := p.Label
  NoNewPrivileges := p.NoNewPrivileges
  Rlimits := p.Rlimits
  ConsoleSocket := p.ConsoleSocket
  Init := p.Init
  ops := some ops
  LogLevel := p.LogLevel
  SubCgroupPaths := p.SubCgroupPaths

end libcontainer

/-! ## `utils.go` (package `main`) -/

/-- Type `cli.Command` of `urfave/cli`, as far as the code reads it. -/
structure cli.Command where
  Name : String
  deriving DecidableEq, Repr

/-- Type `cli.Context` of `urfave/cli`, as far as the code reads it: the
command and the positional arguments. -/
structure cli.Context where
  Command : cli.Command
  args : List String
  deriving DecidableEq, Repr

/-- Method `cli.Context.NArg`: the number of positional arguments. -/
def cli.Context.NArg (c : cli.Context) : Int := (c.args.length : Int)

/-- `utf8.RuneSelf`: code points below it are single bytes (ASCII). -/
def utf8.RuneSelf : Nat := 0x80

/-- `unicode.MaxASCII`. -/
def unicode.MaxASCII : Nat := 0x7F

/-- `unicode.ToLower`. ASCII is handled in the function itself; above ASCII
Go looks the rune up in the case tables of package `unicode`, which are the
parameter `lowerCase` (`unicode.To(unicode.LowerCase, r)`). -/
def unicode.ToLower (lowerCase : Char → Char) (r : Char) : Char :=
  if r.toNat ≤ unicode.MaxASCII then
    if 'A' ≤ r ∧ r ≤ 'Z' then Char.ofNat (r.toNat + ('a'.toNat - 'A'.toNat)) else r
  else lowerCase r

/-- `strings.Map` for a mapping that drops no rune. -/
def strings.Map (mapping : Char → Char) (s : String) : String := String.mk (s.data.map mapping)

/-- `strings.ToLower`: the ASCII-only fast path of the Go function, and
`strings.Map(unicode.ToLower, s)` otherwise. -/
def strings.ToLower (lowerCase : Char → Char) (s : String) : String :=
  let isASCII := s.data.all (fun c => decide (c.toNat < utf8.RuneSelf))
  let hasUpper := s.data.any (fun c => decide ('A' ≤ c ∧ c ≤ 'Z'))
  if isASCII then
    if !hasUpper then s
    else String.mk (s.data.map (fun c =>
      if 'A' ≤ c ∧ c ≤ 'Z' then Char.ofNat (c.toNat + ('a'.toNat - 'A'.toNat)) else c))
  else strings.Map (unicode.ToLower lowerCase) s

/-- `strconv.ErrSyntax`. -/
def strconv.ErrSyntax : GoError := errors.New "invalid syntax"

/-- The `syntaxError` helper of `strconv`. -/
def strconv.syntaxError (fn str : String) : GoError := GoError.numError fn str strconv.ErrSyntax

/-- `strconv.ParseBool`. -/
def strconv.ParseBool (str : String) : Bool × Option GoError :=
  if str = "1" ∨ str = "t" ∨ str = "T" ∨ str = "true" ∨ str = "TRUE" ∨ str = "True" then
    (true, none)
  else if str = "0" ∨ str = "f" ∨ str = "F" ∨ str = "false" ∨ str = "FALSE" ∨ str = "False" then
    (false, none)
  else (false, some (strconv.syntaxError "ParseBool" str))

namespace runc

/-- Constant `exactArgs` (`iota` = 0). -/
def exactArgs : Int := 0
/-- Constant `minArgs`. -/
def minArgs : Int := 1
/-- Constant `maxArgs`. -/
def maxArgs : Int := 2

/-- What `checkArgs` does besides returning. -/
inductive Effect where
  | printf (text : String)
  | showCommandHelp (command : String)
  deriving DecidableEq, Repr

/-- Function `checkArgs`. `arg0` is `os.Args[0]`; the result is the returned
error with what was printed on the way. -/
def checkArgs (arg0 : String) (context : cli.Context) (expected checkType : Int) :
    Option GoError × List Effect :=
  let cmdName := context.Command.Name
  let err : Option GoError :=
    if checkType = exactArgs then
      if context.NArg ≠ expected then
        some (fmt.Errorf "%s: %q requires exactly %d argument(s)"
          [FmtArg.str arg0, FmtArg.str cmdName, FmtArg.int expected])
      else none
    else if checkType = minArgs then
      if context.NArg < expected then
        some (fmt.Errorf "%s: %q requires a minimum of %d argument(s)"
          [FmtArg.str arg0, FmtArg.str cmdName, FmtArg.int expected])
      else none
    else if checkType = maxArgs then
      if context.NArg > expected then
        some (fmt.Errorf "%s: %q requires a maximum of %d argument(s)"
          [FmtArg.str arg0, FmtArg.str cmdName, FmtArg.int expected])
      else none
    else none
  match err with
  | some e => (some e, [Effect.printf "Incorrect Usage.\n\n", Effect.showCommandHelp cmdName])
  | none => (none, [])

/-- Function `parseBoolOrAuto`; the `*bool` is an `Option Bool`. -/
def parseBoolOrAuto (lowerCase : Char → Char) (s : String) : Option Bool × Option GoError :=
  if s = "" ∨ strings.ToLower lowerCase s = "auto" then (none, none)
  else
    let r := strconv.ParseBool s
    (some r.1, r.2)

/-- The sixteen ways to write "auto" in upper and lower case letters. -/
def autoSpellings : List String :=
  ["auto", "autO", "auTo", "auTO", "aUto", "aUtO", "aUTo", "aUTO",
   "Auto", "AutO", "AuTo", "AuTO", "AUto", "AUtO", "AUTo", "AUTO"]

/-- A fragment of the Unicode lower-case mapping above ASCII: the three
runes of the Go tables that fold to "i", "k" and "å" (dotted capital I,
Kelvin sign, Angstrom sign); other runes are left as they are. -/
def sampleLowerCase (c : Char) : Char :=
  if c.toNat = 0x130 then 'i'
  else if c.toNat = 0x212A then 'k'
  else if c.toNat = 0x212B then Char.ofNat 0xE5
  else c

/-- Lower-casing of an ASCII rune: the expression shared by the ASCII branch
of `unicode.ToLower` and the fast path of `strings.ToLower`. -/
def lowerASCII (c : Char) : Char :=
  if 'A' ≤ c ∧ c ≤ 'Z' then Char.ofNat (c.toNat + ('a'.toNat - 'A'.toNat)) else c

end runc

namespace libcontainer

/-! ## The lifecycle manager behind the interface `BaseContainer`

`container.go` declares the interface only; the implementation of its methods
is not among the sources, so `Status` and `Destroy` follow the specification. -/

/-- The struct `BaseState` of `container.go`: the durable container record.
Times are numbers (`Created` in seconds, the start time in clock ticks). -/
structure BaseState where
  ID : String
  InitProcessPid : Int
  InitProcessStartTime : Nat
  Created : Nat
  Config : configs.Config
  deriving DecidableEq, Repr

/-- Modelled from the spec: the freeze state of a container's cgroup, which
the implementation of `Status` (not among the sources) inspects "to
distinguish Running/Pausing/Paused". -/
inductive FreezeState where
  | Thawed
  | Freezing
  | Frozen
  deriving DecidableEq, Repr

/-- Modelled from the spec: the external collaborators of the lifecycle
manager, whose implementation is not among the sources: the persisted-state
store (`records`), the live OS processes with their start times (`procs`),
the containers whose init process is paused at the exec handshake
(`handshake`), the freeze state of the containers' cgroups (`freezer`,
thawed when absent) and the containers holding cgroup resources (`cgroups`). -/
structure Host where
  records : List BaseState
  procs : List (Int × Nat)
  handshake : List String
  freezer : List (String × FreezeState)
  cgroups : List String
  deriving DecidableEq, Repr

/-- Modelled from the spec: the Not-Found condition of the error taxonomy;
the error values of the implementation are not among the sources. -/
def ErrNotFound : GoError := errors.New "container does not exist"

/-- Modelled from the spec: the Invalid-State condition of the error
taxonomy; the error values of the implementation are not among the sources. -/
def ErrInvalidState : GoError := errors.New "invalid state"

/-- Modelled from the spec: the implementation of `BaseContainer.Status` is
not among the sources. "(a) if no Durable Container Record exists, fail with
Not-Found; (b) read the live start time of `InitProcessPid`; mismatch with
`InitProcessStartTime` ⇒ `Stopped`; (c) if the pid is absent from the OS
entirely ⇒ `Stopped`; (d) otherwise inspect the container's freeze state to
distinguish `Running`/`Pausing`/`Paused`", with `Created` while the init
process is "paused at the handshake". -/
def BaseContainer.Status (h : Host) (id : String) : Except GoError Status :=
  match h.records.find? (fun r => r.ID == id) with
  | none => Except.error ErrNotFound
  | some r =>
    match h.procs.lookup r.InitProcessPid with
    | none => Except.ok Stopped
    | some start =>
      if start ≠ r.InitProcessStartTime then Except.ok Stopped
      else if id ∈ h.handshake then Except.ok Created
      else
        match (h.freezer.lookup id).getD FreezeState.Thawed with
        | FreezeState.Thawed => Except.ok Running
        | FreezeState.Freezing => Except.ok Pausing
        | FreezeState.Frozen => Except.ok Paused

/-- Modelled from the spec: the implementation of `BaseContainer.Destroy` is
not among the sources. "Legal only from `Stopped`. [...] Calling from any
other state is Invalid-State, not an implicit kill [...]. Removes the durable
record and releases cgroup resources. Idempotent: destroying an already-gone
container is a success, not an error." -/
def BaseContainer.Destroy (h : Host) (id : String) : Option GoError × Host :=
  match BaseContainer.Status h id with
  | Except.error _ => (none, h)
  | Except.ok s =>
    if s = Stopped then
      (none,
        { h with
          records := h.records.filter (fun r => r.ID != id)
          cgroups := h.cgroups.filter (fun c => c != id) })
    else (some ErrInvalidState, h)

/-- A host with one container "c1" whose init process 100 is alive with the
recorded start time and whose cgroup is not frozen, and one container "c2"
whose cgroup is frozen. -/
def sampleHost : Host where
  records := [⟨"c1", 100, 5, 1700000000, ⟨"{}"⟩⟩, ⟨"c2", 200, 9, 1700000001, ⟨"{}"⟩⟩]
  procs := [(100, 5), (200, 9), (101, 6)]
  handshake := []
  freezer := [("c2", FreezeState.Frozen)]
  cgroups := ["c1", "c2"]

/-! ## The no-new-privileges setting -/

/-- The three settings the specification names for no-new-privileges. -/
inductive PrivilegeSetting where
  | Unset
  | Disabled
  | Enabled
  deriving DecidableEq, Repr

/-- The setting a `*bool` stands for: nil, pointer to false, pointer to true. -/
def PrivilegeSetting.ofPointer : Option Bool → PrivilegeSetting
  | none => PrivilegeSetting.Unset
  | some false => PrivilegeSetting.Disabled
  | some true => PrivilegeSetting.Enabled

/-- The `*bool` (up to the identity of the pointer) that stands for a setting. -/
def PrivilegeSetting.toPointer : PrivilegeSetting → Option Bool
  | PrivilegeSetting.Unset => none
  | PrivilegeSetting.Disabled => some false
  | PrivilegeSetting.Enabled => some true

end libcontainer

/-! ## Theorems -/

namespace libcontainer

/-- On an unbound descriptor every sequence of calls returns the invalid outcomes
and leaves the world as it was. -/
theorem calls_unbound {W : Type} (p : Process W) (h : p.ops = none) (cs : List Call) (w : W) :
    p.calls cs w = (cs.map invalidOutcome, w) := by
  induction cs with
  | nil => rfl
  | cons c cs ih =>
    cases c <;>
      simp [Process.calls, Process.call, Process.Wait, Process.Pid, Process.Signal, h, ih,
        invalidOutcome]

/-- C1: on an unbound descriptor (`ops` nil), whatever the other fields, the
world and the signal, `Wait`, `Pid` and `Signal` each return
`errInvalidProcess`, `Wait` returns no process state, none of them changes
anything, and any sequence of such calls on the descriptor returns, call by
call, the same results and leaves the world as it was. -/
theorem C1_unbound_accessors_invalid {W : Type} (p : Process W) (h : p.ops = none) (w : W) :
    (p.Wait w = ((none, some errInvalidProcess), w))
    ∧ ((p.Pid w).1.2 = some errInvalidProcess ∧ (p.Pid w).2 = w)
    ∧ (∀ sig, p.Signal sig w = (some errInvalidProcess, w))
    ∧ (∀ cs : List Call,
        (p.calls cs w).2 = w
        ∧ (p.calls cs w).1 = cs.map (fun c => (p.call c w).1)
        ∧ (∀ o ∈ (p.calls cs w).1, o.err = some errInvalidProcess)) := by
  refine ⟨by simp [Process.Wait, h], by simp [Process.Pid, h], ?_, ?_⟩
  · intro sig
    simp [Process.Signal, h]
  · intro cs
    rw [calls_unbound p h cs w]
    refine ⟨rfl, ?_, ?_⟩
    · apply List.map_congr_left
      intro c _
      cases c <;>
        simp [Process.call, Process.Wait, Process.Pid, Process.Signal, h, invalidOutcome]
    · intro o ho
      simp only [List.mem_map] at ho
      obtain ⟨c, _, rfl⟩ := ho
      cases c <;> rfl

/-- C1 at a concrete unbound descriptor, world 7 and the calls
Pid, Wait, Signal 9, Pid. -/
theorem C1_unbound_accessors_invalid_witness :
    ({ Process.zero Nat with Args := ["sleep", "100"], Init := true }).ops = none
    ∧ (({ Process.zero Nat with Args := ["sleep", "100"], Init := true }).calls
        [Call.Pid, Call.Wait, Call.Signal ⟨9⟩, Call.Pid] 7).2 = 7 :=
  ⟨rfl, ((C1_unbound_accessors_invalid
    { Process.zero Nat with Args := ["sleep", "100"], Init := true } rfl 7).2.2.2
      [Call.Pid, Call.Wait, Call.Signal ⟨9⟩, Call.Pid]).1⟩

/-- C2: on an unbound descriptor `Pid` returns `math.MinInt32`, that is
-2147483648, the least 32-bit process id, together with `errInvalidProcess`;
the number is neither 0 nor -1. -/
theorem C2_unbound_pid_sentinel {W : Type} (p : Process W) (h : p.ops = none) (w : W) :
    (p.Pid w).1 = (math.MinInt32, some errInvalidProcess)
    ∧ (p.Pid w).1.1 = -2147483648
    ∧ (∀ n : Int, -(2 : Int) ^ 31 ≤ n → (p.Pid w).1.1 ≤ n)
    ∧ (p.Pid w).1.1 ≠ 0
    ∧ (p.Pid w).1.1 ≠ -1 := by
  have e : (p.Pid w).1 = (math.MinInt32, some errInvalidProcess) := by simp [Process.Pid, h]
  have v : (p.Pid w).1.1 = -2147483648 := by rw [e]; simp [math.MinInt32]
  refine ⟨e, v, ?_, ?_, ?_⟩
  · intro n hn
    rw [v]
    norm_num at hn
    exact hn
  · rw [v]; decide
  · rw [v]; decide

/-- C2 at the zero-valued descriptor. -/
theorem C2_unbound_pid_sentinel_witness :
    (Process.zero Nat).ops = none
    ∧ ((Process.zero Nat).Pid 0).1 = (-2147483648, some errInvalidProcess) :=
  ⟨rfl, (C2_unbound_pid_sentinel (Process.zero Nat) rfl 0).1⟩

/-- C3: `Status.String` sends Created, Running, Pausing, Paused and Stopped
to "created", "running", "pausing", "paused" and "stopped"; the five strings
are pairwise distinct, and two defined statuses with the same string are the
same status. -/
theorem C3_status_string :
    Created.String = "created"
    ∧ Running.String = "running"
    ∧ Pausing.String = "pausing"
    ∧ Paused.String = "paused"
    ∧ Stopped.String = "stopped"
    ∧ (definedStatuses.map Status.String).Nodup
    ∧ (∀ s ∈ definedStatuses, ∀ t ∈ definedStatuses, s.String = t.String → s = t) := by
  refine ⟨by decide, by decide, by decide, by decide, by decide, by decide, by decide⟩

/-- C3 at Paused and the status built from the number 3: equal strings,
equal statuses. -/
theorem C3_status_string_witness :
    Paused ∈ definedStatuses ∧ (Status.mk 3) ∈ definedStatuses
    ∧ Paused.String = (Status.mk 3).String ∧ Paused = Status.mk 3 :=
  ⟨by decide, by decide, by decide,
    C3_status_string.2.2.2.2.2.2 Paused (by decide) (Status.mk 3) (by decide) (by decide)⟩

/-- C8: on a descriptor bound to a backend `ops`, whichever backend it is,
`Pid` returns the backend's pid with a nil error, `Wait` returns the
backend's wait result and `Signal sig` the backend's `signal sig` result,
each leaving the world as one call of that backend operation leaves it; with
a backend that records its calls, each accessor adds exactly one call, its
own, to the record. `Pid` returns an error exactly on an unbound descriptor. -/
theorem C8_bound_accessors_delegate {W : Type} (p : Process W) (w : W) :
    (∀ ops : processOperations W, p.ops = some ops →
      p.Pid w = (((ops.pid w).1, none), (ops.pid w).2)
      ∧ p.Wait w = ops.wait w
      ∧ (∀ sig, p.Signal sig w = ops.signal sig w)
      ∧ (∀ log : List BackendCall,
          ((p.bind (recording ops)).Pid (w, log)).2.2 = log ++ [BackendCall.pid]
          ∧ ((p.bind (recording ops)).Wait (w, log)).2.2 = log ++ [BackendCall.wait]
          ∧ (∀ sig, ((p.bind (recording ops)).Signal sig (w, log)).2.2
              = log ++ [BackendCall.signal sig])))
    ∧ ((p.Pid w).1.2 ≠ none ↔ p.ops = none) := by
  refine ⟨?_, ?_⟩
  · intro ops h
    refine ⟨by simp [Process.Pid, h], by simp [Process.Wait, h],
      fun sig => by simp [Process.Signal, h], fun log => ⟨rfl, rfl, fun sig => rfl⟩⟩
  · cases h : p.ops with
    | none => simp [Process.Pid, h]
    | some ops => simp [Process.Pid, h]

/-- C8 at the zero-valued descriptor bound to the sample backend of pid 42,
in world 5: `Pid` returns 42 and no error, and the world is ticked once. -/
theorem C8_bound_accessors_delegate_witness :
    ((Process.zero Nat).bind (sampleOps 42)).ops = some (sampleOps 42)
    ∧ ((Process.zero Nat).bind (sampleOps 42)).Pid 5 = ((42, none), 6) :=
  ⟨rfl, ((C8_bound_accessors_delegate ((Process.zero Nat).bind (sampleOps 42)) 5).1
    (sampleOps 42) rfl).1⟩

end libcontainer

namespace runc

/-- C4: `parseBoolOrAuto` returns no boolean and no error if `s` is the
empty string or the string "auto". -/
theorem C4_parseBoolOrAuto_empty_or_auto (lowerCase : Char → Char) (s : String)
    (h : s = "" ∨ s = "auto") : parseBoolOrAuto lowerCase s = (none, none) := by
  rcases h with h | h
  · simp [parseBoolOrAuto, h]
  · have e : strings.ToLower lowerCase "auto" = "auto" := by
      simp [strings.ToLower, utf8.RuneSelf]
    simp [parseBoolOrAuto, h, e]

/-- C4 at the string "auto". -/
theorem C4_parseBoolOrAuto_empty_or_auto_witness :
    parseBoolOrAuto sampleLowerCase "auto" = (none, none) :=
  C4_parseBoolOrAuto_empty_or_auto sampleLowerCase "auto" (Or.inr rfl)

/-- C5: `checkArgs` returns an error exactly when the check type is
`exactArgs` and the argument count differs from `expected`, or it is
`minArgs` and the count is below `expected`, or it is `maxArgs` and the count
is above `expected`; in every other case, a check type that is none of
the three included, it returns nil. -/
theorem C5_checkArgs_error_iff (arg0 : String) (context : cli.Context)
    (expected checkType : Int) :
    ((checkArgs arg0 context expected checkType).1 ≠ none ↔
      ((checkType = exactArgs ∧ context.NArg ≠ expected)
        ∨ (checkType = minArgs ∧ context.NArg < expected)
        ∨ (checkType = maxArgs ∧ context.NArg > expected)))
    ∧ (¬ ((checkType = exactArgs ∧ context.NArg ≠ expected)
        ∨ (checkType = minArgs ∧ context.NArg < expected)
        ∨ (checkType = maxArgs ∧ context.NArg > expected)) →
        checkArgs arg0 context expected checkType = (none, []))
    ∧ (checkType ≠ exactArgs → checkType ≠ minArgs → checkType ≠ maxArgs →
        checkArgs arg0 context expected checkType = (none, [])) := by
  simp only [checkArgs, exactArgs, minArgs, maxArgs]
  refine ⟨?_, ?_, ?_⟩
  · split_ifs <;> simp_all
  · split_ifs <;> simp_all
  · intro h0 h1 h2
    simp [h0, h1, h2]

/-- C5 at the command "kill" with one argument, `expected` 2 and the check
type 7, which is none of the three: nil is returned and nothing printed. -/
theorem C5_checkArgs_error_iff_witness :
    checkArgs "runc" ⟨⟨"kill"⟩, ["c1"]⟩ 2 7 = (none, []) :=
  (C5_checkArgs_error_iff "runc" ⟨⟨"kill"⟩, ["c1"]⟩ 2 7).2.2 (by decide) (by decide) (by decide)

end runc

namespace libcontainer

/-- C6: `Destroy` on a container whose `Status` is Running or Paused returns
the Invalid-State error and changes nothing: the durable records, the
process table (no process is killed) and the rest of the host are as before. -/
theorem C6_destroy_running_or_paused (h : Host) (id : String)
    (hs : BaseContainer.Status h id = Except.ok Running
      ∨ BaseContainer.Status h id = Except.ok Paused) :
    (BaseContainer.Destroy h id).1 = some ErrInvalidState
    ∧ (BaseContainer.Destroy h id).2.records = h.records
    ∧ (BaseContainer.Destroy h id).2.procs = h.procs
    ∧ (BaseContainer.Destroy h id).2 = h
    ∧ BaseContainer.Status (BaseContainer.Destroy h id).2 id = BaseContainer.Status h id := by
  have e : BaseContainer.Destroy h id = (some ErrInvalidState, h) := by
    rcases hs with hs | hs
    · simp only [BaseContainer.Destroy, hs]
      rw [if_neg (by decide)]
    · simp only [BaseContainer.Destroy, hs]
      rw [if_neg (by decide)]
  rw [e]
  exact ⟨rfl, rfl, rfl, rfl, rfl⟩

/-- C6 at the running container "c1" of the sample host. -/
theorem C6_destroy_running_or_paused_witness :
    BaseContainer.Status sampleHost "c1" = Except.ok Running
    ∧ BaseContainer.Destroy sampleHost "c1" = (some ErrInvalidState, sampleHost) :=
  ⟨rfl, Prod.ext
    (C6_destroy_running_or_paused sampleHost "c1" (Or.inl rfl)).1
    (C6_destroy_running_or_paused sampleHost "c1" (Or.inl rfl)).2.2.2.1⟩

/-- C7, as the code has it: the field `NoNewPrivileges` is a nullable boolean;
the zero-valued descriptor holds the nil pointer, and a descriptor can hold a
pointer to true or to false. -/
theorem C7_noNewPrivileges_counterexample :
    (Process.zero Nat).NoNewPrivileges = (none : Option Bool)
    ∧ ({ Process.zero Nat with NoNewPrivileges := some true }).NoNewPrivileges
        = (some true : Option Bool)
    ∧ ({ Process.zero Nat with NoNewPrivileges := some false }).NoNewPrivileges
        = (some false : Option Bool) :=
  ⟨rfl, rfl, rfl⟩

/-- C7 amended: the no-new-privileges setting of a descriptor is a nullable
boolean with exactly three values, nil, pointer to false and pointer to
true, each of which a descriptor can hold, and these stand one-to-one for
Unset, Disabled and Enabled. -/
theorem C7_noNewPrivileges_three_values {W : Type} (p : Process W) :
    (p.NoNewPrivileges = none ∨ p.NoNewPrivileges = some false
      ∨ p.NoNewPrivileges = some true)
    ∧ (∀ b : Option Bool, ({ p with NoNewPrivileges := b }).NoNewPrivileges = b)
    ∧ PrivilegeSetting.ofPointer none = PrivilegeSetting.Unset
    ∧ PrivilegeSetting.ofPointer (some false) = PrivilegeSetting.Disabled
    ∧ PrivilegeSetting.ofPointer (some true) = PrivilegeSetting.Enabled
    ∧ (∀ b : Option Bool, (PrivilegeSetting.ofPointer b).toPointer = b)
    ∧ (∀ v : PrivilegeSetting, PrivilegeSetting.ofPointer v.toPointer = v) := by
  refine ⟨?_, fun _ => rfl, rfl, rfl, rfl, ?_, ?_⟩
  · rcases p.NoNewPrivileges with _ | _ | _ <;> simp
  · intro b
    rcases b with _ | _ | _ <;> rfl
  · intro v
    cases v <;> rfl

end libcontainer

namespace runc

set_option maxRecDepth 100000 in
/-- The ASCII runes that `lowerASCII` sends to a, u, t or o are the letter itself
and its capital (checked rune by rune). -/
theorem lowerASCII_cases :
    ∀ n < 128, ∀ t ∈ ['a', 'u', 't', 'o'],
      (lowerASCII (Char.ofNat n) = t ↔
        (Char.ofNat n = t ∨ Char.ofNat n = Char.ofNat (t.toNat - 32))) := by
  decide

/-- On an ASCII rune `unicode.ToLower` is `lowerASCII`, whatever the case table. -/
theorem unicode_ToLower_ascii (lowerCase : Char → Char) (c : Char) (h : c.toNat < 128) :
    unicode.ToLower lowerCase c = lowerASCII c := by
  have h1 : c.toNat ≤ unicode.MaxASCII := by
    simp only [unicode.MaxASCII]
    omega
  simp [unicode.ToLower, lowerASCII, h1]

/-- A rune outside A..Z is left as it is by `lowerASCII`. -/
theorem lowerASCII_of_not_upper (c : Char) (h : ¬ ('A' ≤ c ∧ c ≤ 'Z')) : lowerASCII c = c := by
  simp only [lowerASCII, if_neg h]

/-- On an ASCII-only string `strings.ToLower` lower-cases rune by rune with
`lowerASCII`. -/
theorem ToLower_ascii (lowerCase : Char → Char) (s : String)
    (h : s.data.all (fun c => decide (c.toNat < utf8.RuneSelf)) = true) :
    strings.ToLower lowerCase s = String.mk (s.data.map lowerASCII) := by
  simp only [strings.ToLower, h, if_true]
  split_ifs with h2
  · have e : s.data.map lowerASCII = s.data := by
      conv_rhs => rw [← List.map_id s.data]
      apply List.map_congr_left
      intro c hc
      simp only [id]
      apply lowerASCII_of_not_upper
      intro hu
      simp only [Bool.not_eq_true', List.any_eq_false] at h2
      exact h2 c hc (by simpa using hu)
    rw [e]
  · rfl

/-- The fast path agrees with the general one: `strings.ToLower` maps
`unicode.ToLower` over the runes of every string. -/
theorem ToLower_eq_map (lowerCase : Char → Char) (s : String) :
    strings.ToLower lowerCase s = String.mk (s.data.map (unicode.ToLower lowerCase)) := by
  by_cases h : s.data.all (fun c => decide (c.toNat < utf8.RuneSelf)) = true
  · rw [ToLower_ascii lowerCase s h]
    congr 1
    apply List.map_congr_left
    intro c hc
    rw [List.all_eq_true] at h
    have := h c hc
    simp only [utf8.RuneSelf, decide_eq_true_eq] at this
    exact (unicode_ToLower_ascii lowerCase c this).symm
  · simp only [strings.ToLower, h]
    rfl

/-- When the case table sends no rune above ASCII to a, u, t or o, the runes
that `unicode.ToLower` sends to such a letter are the letter and its capital. -/
theorem unicode_ToLower_eq_iff (lowerCase : Char → Char)
    (h : ∀ c : Char, unicode.MaxASCII < c.toNat → lowerCase c ∉ ['a', 'u', 't', 'o'])
    (c t : Char) (ht : t ∈ ['a', 'u', 't', 'o']) :
    unicode.ToLower lowerCase c = t ↔ (c = t ∨ c = Char.ofNat (t.toNat - 32)) := by
  by_cases hc : c.toNat < 128
  · rw [unicode_ToLower_ascii lowerCase c hc]
    have := lowerASCII_cases c.toNat hc t ht
    rwa [Char.ofNat_toNat] at this
  · have hc1 : unicode.MaxASCII < c.toNat := by
      simp only [unicode.MaxASCII]
      omega
    have hl : unicode.ToLower lowerCase c = lowerCase c := by
      simp only [unicode.ToLower, if_neg (not_le.mpr hc1)]
    rw [hl]
    constructor
    · intro e
      exact absurd (e ▸ ht) (h c hc1)
    · intro e
      exfalso
      apply hc
      simp only [List.mem_cons, List.mem_singleton, List.not_mem_nil, or_false] at ht
      rcases ht with rfl | rfl | rfl | rfl <;> rcases e with rfl | rfl <;> decide

/-- Under the same proviso, the strings that `strings.ToLower` sends to "auto"
are its sixteen spellings. -/
theorem ToLower_eq_auto_iff (lowerCase : Char → Char)
    (h : ∀ c : Char, unicode.MaxASCII < c.toNat → lowerCase c ∉ ['a', 'u', 't', 'o'])
    (s : String) : strings.ToLower lowerCase s = "auto" ↔ s ∈ autoSpellings := by
  constructor
  · intro e
    rw [ToLower_eq_map] at e
    have e1 : s.data.map (unicode.ToLower lowerCase) = ['a', 'u', 't', 'o'] :=
      congrArg String.data e
    obtain ⟨l⟩ := s
    simp only at e1
    rcases l with _ | ⟨c1, _ | ⟨c2, _ | ⟨c3, _ | ⟨c4, _ | ⟨c5, l⟩⟩⟩⟩⟩ <;>
      simp only [List.map, List.cons.injEq, and_true, reduceCtorEq, and_false] at e1
    obtain ⟨h1, h2, h3, h4⟩ := e1
    rw [unicode_ToLower_eq_iff lowerCase h _ _ (by decide)] at h1 h2 h3 h4
    rcases h1 with rfl | rfl <;> rcases h2 with rfl | rfl <;> rcases h3 with rfl | rfl <;>
      rcases h4 with rfl | rfl <;> decide
  · intro hs
    simp only [autoSpellings, List.mem_cons, List.mem_singleton, List.not_mem_nil, or_false] at hs
    rcases hs with rfl | rfl | rfl | rfl | rfl | rfl | rfl | rfl | rfl | rfl | rfl | rfl | rfl
      | rfl | rfl | rfl <;>
      (rw [ToLower_ascii lowerCase _ (by decide)]; decide)

/-- The sample case table sends no rune above ASCII to a, u, t or o. -/
theorem sampleLowerCase_above_ascii (c : Char) (hc : unicode.MaxASCII < c.toNat) :
    sampleLowerCase c ∉ ['a', 'u', 't', 'o'] := by
  simp only [sampleLowerCase]
  split_ifs with h1 h2 h3
  · decide
  · decide
  · decide
  · intro hm
    simp only [List.mem_cons, List.mem_singleton, List.not_mem_nil, or_false] at hm
    simp only [unicode.MaxASCII] at hc
    rcases hm with rfl | rfl | rfl | rfl <;> exact absurd hc (by decide)

/-- C9: provided the Unicode case tables send no rune above ASCII to one of
the letters a, u, t, o (as the tables of Go do), for every string `s`:
`parseBoolOrAuto` returns a nil pointer exactly when `s` is empty or is
"auto" written in any mix of upper and lower case, and then the error is nil
too; for every other `s` it returns a non-nil pointer to the value of
`strconv.ParseBool s` with the error of `strconv.ParseBool s`, that is true
and nil for "1", "t", "T", "TRUE", "true", "True", false and nil for "0",
"f", "F", "FALSE", "false", "False", and otherwise a pointer to false with
a non-nil (syntax) error. -/
theorem C9_parseBoolOrAuto_cases (lowerCase : Char → Char)
    (h : ∀ c : Char, unicode.MaxASCII < c.toNat → lowerCase c ∉ ['a', 'u', 't', 'o'])
    (s : String) :
    ((parseBoolOrAuto lowerCase s).1 = none ↔ (s = "" ∨ s ∈ autoSpellings))
    ∧ ((s = "" ∨ s ∈ autoSpellings) → parseBoolOrAuto lowerCase s = (none, none))
    ∧ (¬ (s = "" ∨ s ∈ autoSpellings) →
        parseBoolOrAuto lowerCase s = (some (strconv.ParseBool s).1, (strconv.ParseBool s).2)
        ∧ (s ∈ ["1", "t", "T", "TRUE", "true", "True"] →
            parseBoolOrAuto lowerCase s = (some true, none))
        ∧ (s ∈ ["0", "f", "F", "FALSE", "false", "False"] →
            parseBoolOrAuto lowerCase s = (some false, none))
        ∧ (s ∉ ["1", "t", "T", "TRUE", "true", "True",
                "0", "f", "F", "FALSE", "false", "False"] →
            parseBoolOrAuto lowerCase s
              = (some false, some (strconv.syntaxError "ParseBool" s)))) := by
  have key := ToLower_eq_auto_iff lowerCase h s
  by_cases hs : s = "" ∨ s ∈ autoSpellings
  · have e : parseBoolOrAuto lowerCase s = (none, none) := by
      simp only [parseBoolOrAuto, key, if_pos hs]
    refine ⟨?_, fun _ => e, fun hn => absurd hs hn⟩
    rw [e]
    exact ⟨fun _ => hs, fun _ => rfl⟩
  · have e : parseBoolOrAuto lowerCase s
        = (some (strconv.ParseBool s).1, (strconv.ParseBool s).2) := by
      simp only [parseBoolOrAuto, key, if_neg hs]
    refine ⟨?_, fun hp => absurd hp hs, fun _ => ⟨e, ?_, ?_, ?_⟩⟩
    · rw [e]
      simp [hs]
    · intro hm
      rw [e]
      simp only [List.mem_cons, List.mem_singleton, List.not_mem_nil, or_false] at hm
      rcases hm with rfl | rfl | rfl | rfl | rfl | rfl <;> decide
    · intro hm
      rw [e]
      simp only [List.mem_cons, List.mem_singleton, List.not_mem_nil, or_false] at hm
      rcases hm with rfl | rfl | rfl | rfl | rfl | rfl <;> decide
    · intro hm
      rw [e]
      simp only [List.mem_cons, List.mem_singleton, List.not_mem_nil, or_false, not_or] at hm
      obtain ⟨a1, a2, a3, a4, a5, a6, b1, b2, b3, b4, b5, b6⟩ := hm
      simp [strconv.ParseBool, a1, a2, a3, a4, a5, a6, b1, b2, b3, b4, b5, b6]

/-- C9 with the sample case table at "AUTO" (nil pointer, nil error). -/
theorem C9_parseBoolOrAuto_cases_witness :
    (∀ c : Char, unicode.MaxASCII < c.toNat → sampleLowerCase c ∉ ['a', 'u', 't', 'o'])
    ∧ ("AUTO" = "" ∨ "AUTO" ∈ autoSpellings)
    ∧ parseBoolOrAuto sampleLowerCase "AUTO" = (none, none) :=
  ⟨sampleLowerCase_above_ascii, by decide,
    (C9_parseBoolOrAuto_cases sampleLowerCase sampleLowerCase_above_ascii "AUTO").2.1
      (by decide)⟩

end runc
